import Mathlib

/-!
# Signaling interpreter and encoder bridge of the screen-sharing relay (main.go)

A shallow embedding of `handleSignalingMessage`, of the read loop of
`handleWebSocket` and of `captureAndStream`.  The collaborators that are not
part of the repository (encoding/json, the WebRTC peer connection, the
WebSocket connection, the IVF reader, the media track, the encoder process)
are parameters of the model; the calls the source makes on the session, the
connection, the track and the process, and its log statements, are recorded
in a trace, in program order.  One call of `handleSignalingMessage` runs under
the mutex `mu` from start to end and is modelled as one step.
-/

namespace Main

/-- A Go string or byte sequence. -/
abbrev Bytes := List UInt8

/-- A Go `error` value (only its presence matters to the code). -/
abbrev GoError := String

/-! ## Byte slices -/

/-- A Go `[]byte`: the backing array from the slice's first element on (its
length is the capacity of the slice) and the length of the slice. -/
structure ByteSlice where
  array : Bytes
  len : Nat
deriving DecidableEq, Repr

/-- The value of `cap(s)`. -/
def ByteSlice.cap (s : ByteSlice) : Nat := s.array.length

/-- The value of `string(s)`: the elements below the length. -/
def ByteSlice.toString (s : ByteSlice) : Bytes := s.array.take s.len

/-- The slice expression `s[lo:hi]`.  For a slice operand Go checks
`0 <= lo <= hi <= cap(s)`; out of range is a run-time panic (`none`). -/
def ByteSlice.slice (s : ByteSlice) (lo hi : Nat) : Option ByteSlice :=
  if lo ≤ hi ∧ hi ≤ s.cap then some ⟨s.array.drop lo, hi - lo⟩ else none

/-- The capacity of `[]byte(s)` for a string of length `n`.  It is
implementation-specific and at least the length; `capOf` is what the runtime
would hand out.  The Go runtime serves a non-empty byte slice from an
allocation of at least 8 bytes (its smallest size class; a stack buffer has
32), so a non-empty slice never has a capacity below 8. -/
def byteSliceCap (capOf : Nat → Nat) (n : Nat) : Nat :=
  if n = 0 then capOf 0 else max (capOf n) (max n 8)

/-- The conversion `[]byte(message)`.  The elements are the bytes of the
string; the spare elements up to the capacity are zero. -/
def stringToBytes (capOf : Nat → Nat) (message : Bytes) : ByteSlice :=
  ⟨message ++ List.replicate (byteSliceCap capOf message.length - message.length) 0,
   message.length⟩

/-- The marker `"offerreq"` as bytes. -/
def offerreq : Bytes := [111, 102, 102, 101, 114, 114, 101, 113]

/-! ## WebRTC data -/

/-- The type `webrtc.SDPType`. -/
inductive SDPType
  | Offer
  | Pranswer
  | Answer
  | Rollback
deriving DecidableEq, Repr

/-- The type `webrtc.SessionDescription`. -/
structure SessionDescription where
  type : SDPType
  SDP : Bytes
deriving DecidableEq, Repr

/-- The type `webrtc.ICECandidateInit`. -/
structure ICECandidateInit where
  Candidate : Bytes
  SDPMid : Option Bytes
  SDPMLineIndex : Option Nat
  UsernameFragment : Option Bytes
deriving DecidableEq, Repr

/-- The anonymous struct `candidateMsg` the message is unmarshalled into. -/
structure CandidateMsg where
  Candidate : Option ICECandidateInit
deriving DecidableEq, Repr

/-- The value of `websocket.TextMessage`. -/
def TextMessage : Nat := 1

/-- The value of `websocket.BinaryMessage`. -/
def BinaryMessage : Nat := 2

/-- The value of `websocket.CloseMessage`. -/
def CloseMessage : Nat := 8

/-! ## Traces -/

/-- The log statements of `handleSignalingMessage` and of the read loop, one
constructor per call of `log.Printf` or `log.Println`. -/
inductive LogLine
  | peerConnectionNil
  | receivedSignaling
  | receivedICECandidate
  | errorAddingICECandidate
  | errorCreatingOffer
  | errorSettingLocalDescription
  | errorSendingOffer
  | errorSettingRemoteDescription
  | errorReadingMessage
  | clientDisconnected
deriving DecidableEq, Repr

/-- What the signaling code does to its collaborators, in program order. -/
inductive Event
  | Log (line : LogLine)
  | AddICECandidate (c : ICECandidateInit)
  | CreateOffer
  | SetLocalDescription (d : SessionDescription)
  | SetRemoteDescription (d : SessionDescription)
  | WriteMessage (messageType : Nat) (data : Bytes)
  | ReadMessage
deriving DecidableEq, Repr

/-- How a function call ends: it returns, it panics, or it ends the whole
process (`log.Fatalf`, which calls `os.Exit(1)`: deferred calls do not run). -/
inductive Outcome
  | returned
  | panicked
  | exited
deriving DecidableEq, Repr

/-- The collaborators of the signaling code.  `σ` is the state of the peer
connection object held by the library. -/
structure Env (σ : Type) where
  /-- The call `json.Unmarshal(msg, &candidateMsg)`: the error and the value left in the struct. -/
  Unmarshal : Bytes → Option GoError × CandidateMsg
  /-- The capacity the runtime would give `[]byte(s)` for a string of this length
  (see `byteSliceCap`). -/
  capOf : Nat → Nat
  AddICECandidate : σ → ICECandidateInit → σ × Option GoError
  CreateOffer : σ → σ × Except GoError SessionDescription
  SetLocalDescription : σ → SessionDescription → σ × Option GoError
  SetRemoteDescription : σ → SessionDescription → σ × Option GoError
  /-- The call `conn.WriteMessage(messageType, data)`. -/
  WriteMessage : Nat → Bytes → Option GoError

/-- The result of one call of `handleSignalingMessage`: the global
`peerConnection` afterwards, the trace, and how the call ended. -/
structure Result (σ : Type) where
  peerConnection : Option σ
  trace : List Event
  outcome : Outcome

/-- The log line that follows a call when it reported an error. -/
def logIfErr (err : Option GoError) (line : LogLine) : List Event :=
  match err with
  | some _ => [Event.Log line]
  | none => []

/-- The function `handleSignalingMessage` (main.go, lines 137-191). -/
def handleSignalingMessage {σ : Type} (env : Env σ) (peerConnection : Option σ)
    (message : Bytes) : Result σ :=
  match peerConnection with
  | none => ⟨none, [Event.Log LogLine.peerConnectionNil], Outcome.returned⟩
  | some pc =>
    let msg := stringToBytes env.capOf message
    let um := env.Unmarshal msg.toString
    match um.1, um.2.Candidate with
    | none, some c =>
      let r := env.AddICECandidate pc c
      ⟨some r.1,
       [Event.Log LogLine.receivedSignaling, Event.Log LogLine.receivedICECandidate,
        Event.AddICECandidate c] ++ logIfErr r.2 LogLine.errorAddingICECandidate,
       Outcome.returned⟩
    | _, _ =>
      if msg.len > 0 then
        match msg.slice 0 8 with
        | none => ⟨some pc, [Event.Log LogLine.receivedSignaling], Outcome.panicked⟩
        | some head =>
          if head.toString = offerreq then
            let r := env.CreateOffer pc
            match r.2 with
            | Except.error _ =>
              ⟨some r.1,
               [Event.Log LogLine.receivedSignaling, Event.CreateOffer,
                Event.Log LogLine.errorCreatingOffer],
               Outcome.returned⟩
            | Except.ok offer =>
              let r2 := env.SetLocalDescription r.1 offer
              match r2.2 with
              | some _ =>
                ⟨some r2.1,
                 [Event.Log LogLine.receivedSignaling, Event.CreateOffer,
                  Event.SetLocalDescription offer,
                  Event.Log LogLine.errorSettingLocalDescription],
                 Outcome.returned⟩
              | none =>
                ⟨some r2.1,
                 [Event.Log LogLine.receivedSignaling, Event.CreateOffer,
                  Event.SetLocalDescription offer,
                  Event.WriteMessage TextMessage offer.SDP]
                  ++ logIfErr (env.WriteMessage TextMessage offer.SDP) LogLine.errorSendingOffer,
                 Outcome.returned⟩
          else
            let d : SessionDescription := ⟨SDPType.Answer, msg.toString⟩
            let r := env.SetRemoteDescription pc d
            ⟨some r.1,
             [Event.Log LogLine.receivedSignaling, Event.SetRemoteDescription d]
              ++ logIfErr r.2 LogLine.errorSettingRemoteDescription,
             Outcome.returned⟩
      else
        ⟨some pc, [Event.Log LogLine.receivedSignaling], Outcome.returned⟩

/-- One result of `conn.ReadMessage()`: an error, or a message with its type
and payload. -/
inductive Read
  | error
  | message (messageType : Nat) (payload : Bytes)
deriving DecidableEq, Repr

/-- The `for` loop of `handleWebSocket` (main.go, lines 119-133), run on the
results `conn.ReadMessage()` yields one after the other; once the connection
has nothing more to yield, `ReadMessage` reports an error.  The WebSocket
library reports a close frame as such an error; the `CloseMessage` case is kept
as the source has it.  A panic of the message handler unwinds the loop. -/
def handleWebSocketLoop {σ : Type} (env : Env σ) (peerConnection : Option σ) :
    List Read → Result σ
  | [] =>
    ⟨peerConnection, [Event.ReadMessage, Event.Log LogLine.errorReadingMessage], Outcome.returned⟩
  | Read.error :: _ =>
    ⟨peerConnection, [Event.ReadMessage, Event.Log LogLine.errorReadingMessage], Outcome.returned⟩
  | Read.message messageType payload :: rest =>
    if messageType = TextMessage then
      let r := handleSignalingMessage env peerConnection payload
      match r.outcome with
      | Outcome.returned =>
        let r2 := handleWebSocketLoop env r.peerConnection rest
        ⟨r2.peerConnection, Event.ReadMessage :: r.trace ++ r2.trace, r2.outcome⟩
      | o => ⟨r.peerConnection, Event.ReadMessage :: r.trace, o⟩
    else if messageType = CloseMessage then
      ⟨peerConnection, [Event.ReadMessage, Event.Log LogLine.clientDisconnected], Outcome.returned⟩
    else
      let r2 := handleWebSocketLoop env peerConnection rest
      ⟨r2.peerConnection, Event.ReadMessage :: r2.trace, r2.outcome⟩

/-! ## Observations on a signaling trace -/

/-- The description operations: `CreateOffer`, `SetLocalDescription`, `SetRemoteDescription`. -/
def Event.isDescriptionOp : Event → Bool
  | Event.CreateOffer => true
  | Event.SetLocalDescription _ => true
  | Event.SetRemoteDescription _ => true
  | _ => false

/-- The candidate registration `AddICECandidate`. -/
def Event.isCandidateOp : Event → Bool
  | Event.AddICECandidate _ => true
  | _ => false

/-- The payloads handed to `conn.WriteMessage`, whether or not the write reported an error. -/
def sent : List Event → List Bytes
  | [] => []
  | Event.WriteMessage _ data :: t => data :: sent t
  | _ :: t => sent t

/-- The calls made on the peer connection. -/
def sessionCalls (t : List Event) : List Event :=
  t.filter (fun e => e.isDescriptionOp || e.isCandidateOp)

/-- The number of `conn.ReadMessage()` calls. -/
def readCount (t : List Event) : Nat := t.count Event.ReadMessage

/-- The test of line 154: `err == nil && candidateMsg.Candidate != nil`. -/
def isCandidateMessage {σ : Type} (env : Env σ) (message : Bytes) : Bool :=
  match (env.Unmarshal message).1, (env.Unmarshal message).2.Candidate with
  | none, some _ => true
  | _, _ => false

/-- The bytes a JSON text can begin with: white space, or the first byte of a value. -/
def jsonValueStart (b : UInt8) : Bool :=
  b = 9 || b = 10 || b = 13 || b = 32 || b = 34 || b = 45 || (48 ≤ b && b ≤ 57) ||
  b = 91 || b = 102 || b = 110 || b = 116 || b = 123

/-- What the code relies on from `json.Unmarshal` for an offer request: input
that is empty or begins with a byte no JSON text begins with is a syntax error. -/
def RejectsNonJSON (unmarshal : Bytes → Option GoError × CandidateMsg) : Prop :=
  ∀ m : Bytes, (∀ b, m.head? = some b → jsonValueStart b = false) → (unmarshal m).1 ≠ none

/-! ## The encoder bridge -/

/-- The type `media.Sample`, as far as the code fills it in; the duration is in
nanoseconds, as `time.Duration` is. -/
structure Sample where
  Data : Bytes
  Duration : Nat
deriving DecidableEq, Repr

/-- The constant `time.Millisecond`, in nanoseconds. -/
def Millisecond : Nat := 1000000

/-- The log statements of `captureAndStream`. -/
inductive BridgeLog
  | errorCreatingStdoutPipe
  | errorCreatingStderrPipe
  | errorStartingFfmpeg
  | errorCreatingIVFReader
  | errorReadingIVFFrame
  | errorWritingToVideoTrack
deriving DecidableEq, Repr

/-- What `captureAndStream` does to the encoder process and to the track. -/
inductive BridgeEvent
  | Start
  | Log (line : BridgeLog)
  | WriteSample (s : Sample)
  | Kill
  | Wait
deriving DecidableEq, Repr

/-- How the frame source ends: `ParseNextFrame` reports `io.EOF`, or another error. -/
inductive StreamEnd
  | EOF
  | parseError
deriving DecidableEq, Repr

/-- The frames `ParseNextFrame` yields, in order, and the error that follows them. -/
structure IVFStream where
  frames : List Bytes
  ending : StreamEnd
deriving DecidableEq, Repr

/-- The encoder process as `captureAndStream` sees it: the errors of
`cmd.StdoutPipe()`, `cmd.StderrPipe()` and `cmd.Start()`, and the result of
`ivfreader.NewWith(stdout)`: the header cannot be decoded, or a reader. -/
structure Encoder where
  StdoutPipe : Option GoError
  StderrPipe : Option GoError
  Start : Option GoError
  NewWith : Except GoError IVFStream

/-- The track: the error of `track.WriteSample(s)`, given the samples written before. -/
structure Track where
  WriteSample : List Sample → Sample → Option GoError

/-- The result of `captureAndStream`. -/
structure BridgeResult where
  trace : List BridgeEvent
  outcome : Outcome
deriving DecidableEq, Repr

/-- The sample built at lines 264-267 for a frame. -/
def sampleOf (frame : Bytes) : Sample := ⟨frame, Millisecond * 33⟩

/-- The deferred function of lines 242-247. -/
def deferredTeardown (ffmpegCmd : Option Unit) : List BridgeEvent :=
  match ffmpegCmd with
  | some _ => [BridgeEvent.Kill, BridgeEvent.Wait]
  | none => []

/-- The `for` loop of lines 255-272; `written` is what the track received so far. -/
def frameLoop (track : Track) (written : List Sample) : List Bytes → List BridgeEvent
  | [] => [BridgeEvent.Log BridgeLog.errorReadingIVFFrame]
  | frame :: rest =>
    match track.WriteSample written (sampleOf frame) with
    | some _ =>
      [BridgeEvent.WriteSample (sampleOf frame), BridgeEvent.Log BridgeLog.errorWritingToVideoTrack]
    | none =>
      BridgeEvent.WriteSample (sampleOf frame) :: frameLoop track (written ++ [sampleOf frame]) rest

/-- The function `captureAndStream` (main.go, lines 194-273).  The global
`ffmpegCmd` is assigned at line 211, before anything can fail.  The goroutine
that drains the diagnostic stream takes no part. -/
def captureAndStream (enc : Encoder) (track : Track) : BridgeResult :=
  let ffmpegCmd : Option Unit := some ()
  match enc.StdoutPipe with
  | some _ => ⟨[BridgeEvent.Log BridgeLog.errorCreatingStdoutPipe], Outcome.exited⟩
  | none =>
    match enc.StderrPipe with
    | some _ => ⟨[BridgeEvent.Log BridgeLog.errorCreatingStderrPipe], Outcome.exited⟩
    | none =>
      match enc.Start with
      | some _ =>
        ⟨[BridgeEvent.Start, BridgeEvent.Log BridgeLog.errorStartingFfmpeg], Outcome.exited⟩
      | none =>
        match enc.NewWith with
        | Except.error _ =>
          ⟨[BridgeEvent.Start, BridgeEvent.Log BridgeLog.errorCreatingIVFReader], Outcome.exited⟩
        | Except.ok ivf =>
          ⟨BridgeEvent.Start :: frameLoop track [] ivf.frames ++ deferredTeardown ffmpegCmd,
           Outcome.returned⟩

/-- The samples handed to `track.WriteSample`, in order. -/
def samplesWritten : List BridgeEvent → List Sample
  | [] => []
  | BridgeEvent.WriteSample s :: t => s :: samplesWritten t
  | _ :: t => samplesWritten t

/-- The error of the write of frame number `i` (from 0), when the frames before
it were written after the samples `written`. -/
def writeErrAt (track : Track) (written : List Sample) (frames : List Bytes) (i : Nat) :
    Option GoError :=
  track.WriteSample (written ++ (frames.take i).map (fun frame => ⟨frame, 33 * Millisecond⟩))
    ⟨frames.getD i [], 33 * Millisecond⟩

/-! ## Concrete collaborators -/

/-- A peer connection state for the examples: the committed descriptions, the
registered candidates, and whether the connection was closed. -/
structure PeerState where
  localDescription : Option SessionDescription
  remoteDescription : Option SessionDescription
  candidates : List ICECandidateInit
  closed : Bool
deriving DecidableEq, Repr

/-- A fresh peer connection. -/
def freshPeer : PeerState := ⟨none, none, [], false⟩

/-- A closed peer connection. -/
def closedPeer : PeerState := ⟨none, none, [], true⟩

/-- The bytes of `v=0`. -/
def sdpStart : Bytes := [118, 61, 48]

/-- The bytes of the candidate message of the first end-to-end scenario, with `c` for the dots. -/
def candidateJSON : Bytes :=
  [123, 34, 99, 97, 110, 100, 105, 100, 97, 116, 101, 34, 58, 123, 34, 99, 97, 110, 100, 105,
   100, 97, 116, 101, 34, 58, 34, 99, 34, 44, 34, 115, 100, 112, 77, 105, 100, 34, 58, 34, 48,
   34, 125, 125]

/-- The candidate that message carries. -/
def sampleCandidate : ICECandidateInit := ⟨[99], some [48], none, none⟩

/-- An example environment: the decoder knows the one candidate message; a
candidate is refused while no remote description is set; an offer is refused
on a closed connection; a remote description must begin with `v=0`; the
runtime rounds the size of a byte slice up to a multiple of 8. -/
def sampleEnv : Env PeerState where
  Unmarshal := fun m =>
    if m = candidateJSON then (none, ⟨some sampleCandidate⟩) else (some "invalid", ⟨none⟩)
  capOf := fun n => 8 * ((n + 7) / 8)
  AddICECandidate := fun s c =>
    match s.remoteDescription with
    | none => (s, some "no remote description")
    | some _ => ({ s with candidates := s.candidates ++ [c] }, none)
  CreateOffer := fun s =>
    if s.closed then (s, Except.error "connection closed")
    else (s, Except.ok ⟨SDPType.Offer, sdpStart⟩)
  SetLocalDescription := fun s d => ({ s with localDescription := some d }, none)
  SetRemoteDescription := fun s d =>
    if d.SDP.take 3 = sdpStart then ({ s with remoteDescription := some d }, none)
    else (s, some "malformed description")
  WriteMessage := fun _ _ => none

/-- The bytes of `offerre`, the marker without its last byte. -/
def offerre : Bytes := [111, 102, 102, 101, 114, 114, 101]

/-- An environment whose connection refuses every write. -/
def brokenConnEnv : Env PeerState := { sampleEnv with WriteMessage := fun _ _ => some "closed" }

/-- The bytes of `abc`. -/
def abc : Bytes := [97, 98, 99]

/-- The bytes of `offerreqXYZ`. -/
def offerreqXYZ : Bytes := offerreq ++ [88, 89, 90]

/-- The bytes of `hello world`, which is no session description. -/
def helloWorld : Bytes := [104, 101, 108, 108, 111, 32, 119, 111, 114, 108, 100]

/-- A track that takes every sample. -/
def goodTrack : Track := ⟨fun _ _ => none⟩

/-- A track that fails from the second sample on. -/
def failingTrack : Track := ⟨fun written _ => if written.length < 1 then none else some "closed"⟩

/-- An encoder that starts and yields the given frames, then end-of-stream. -/
def encoderOf (frames : List Bytes) : Encoder := ⟨none, none, none, Except.ok ⟨frames, StreamEnd.EOF⟩⟩

/-- An encoder that starts but whose output has no decodable container header. -/
def badHeaderEncoder : Encoder := ⟨none, none, none, Except.error "incomplete header"⟩

/-! ## Byte slices: the conversion and the eight-byte slice -/

theorem stringToBytes_toString (capOf : Nat → Nat) (m : Bytes) :
    (stringToBytes capOf m).toString = m := by
  simp [stringToBytes, ByteSlice.toString]

theorem stringToBytes_len (capOf : Nat → Nat) (m : Bytes) :
    (stringToBytes capOf m).len = m.length := rfl

theorem byteSliceCap_ge_len (capOf : Nat → Nat) (n : Nat) : n ≤ byteSliceCap capOf n := by
  unfold byteSliceCap
  split <;> omega

/-- A non-empty byte slice has room for eight bytes. -/
theorem byteSliceCap_ge_eight (capOf : Nat → Nat) (n : Nat) (h : 0 < n) :
    8 ≤ byteSliceCap capOf n := by
  unfold byteSliceCap
  rw [if_neg (by omega)]
  omega

theorem stringToBytes_cap (capOf : Nat → Nat) (m : Bytes) :
    (stringToBytes capOf m).cap = byteSliceCap capOf m.length := by
  have := byteSliceCap_ge_len capOf m.length
  simp only [stringToBytes, ByteSlice.cap, List.length_append, List.length_replicate]
  omega

/-- For a non-empty message the slice expression `msg[0:8]` is in range. -/
theorem stringToBytes_slice_in_range (capOf : Nat → Nat) (m : Bytes) (h : m ≠ []) :
    (stringToBytes capOf m).slice 0 8 = some ⟨(stringToBytes capOf m).array, 8⟩ := by
  have h8 := byteSliceCap_ge_eight capOf m.length (List.length_pos.mpr h)
  simp only [ByteSlice.slice, stringToBytes_cap]
  rw [if_pos ⟨Nat.zero_le _, h8⟩]
  simp

/-- For a non-empty message shorter than eight bytes the slice `msg[0:8]` holds the message
followed by spare zero bytes. -/
theorem stringToBytes_head_short (capOf : Nat → Nat) (m : Bytes) (h : m ≠ [])
    (hlt : m.length < 8) :
    (stringToBytes capOf m).array.take 8 = m ++ List.replicate (8 - m.length) 0 := by
  have h8 := byteSliceCap_ge_eight capOf m.length (List.length_pos.mpr h)
  simp only [stringToBytes]
  rw [List.take_append_eq_append_take, List.take_of_length_le (by omega), List.take_replicate,
    Nat.min_eq_left (by omega)]

theorem zero_not_mem_offerreq : (0 : UInt8) ∉ offerreq := by decide

/-- The eight bytes the comparison sees are the marker exactly when the message begins with it:
the spare zero bytes of a short message never complete the marker. -/
theorem head_eq_offerreq_iff (capOf : Nat → Nat) (m : Bytes) :
    (stringToBytes capOf m).array.take 8 = offerreq ↔ m.take 8 = offerreq := by
  simp only [stringToBytes]
  by_cases hlen : 8 ≤ m.length
  · rw [List.take_append_of_le_length hlen]
  · have hlt : m.length < 8 := by omega
    constructor
    · intro h
      exfalso
      rw [List.take_append_eq_append_take] at h
      rw [List.take_of_length_le (by omega)] at h
      have hl : (m ++ List.take (8 - m.length)
          (List.replicate (byteSliceCap capOf m.length - m.length) 0)).length = 8 := by
        rw [h]; rfl
      rw [List.length_append, List.length_take, List.length_replicate] at hl
      have hpos : 0 < min (8 - m.length) (byteSliceCap capOf m.length - m.length) := by omega
      apply zero_not_mem_offerreq
      rw [← h]
      apply List.mem_append_right
      rw [List.take_replicate]
      exact List.mem_replicate.mpr ⟨by omega, rfl⟩
    · intro h
      exfalso
      have hl : (m.take 8).length = 8 := by rw [h]; rfl
      rw [List.length_take] at hl
      omega

/-! ## The branches of `handleSignalingMessage` -/

theorem isCandidateMessage_eq_true {σ : Type} (env : Env σ) (m : Bytes)
    (h : isCandidateMessage env m = true) :
    ∃ c, (env.Unmarshal m).1 = none ∧ (env.Unmarshal m).2.Candidate = some c := by
  unfold isCandidateMessage at h
  split at h
  · next c h1 h2 => exact ⟨c, h1, h2⟩
  · exact absurd h (by simp)

theorem isCandidateMessage_of_unmarshal {σ : Type} (env : Env σ) (m : Bytes)
    (c : ICECandidateInit) (h1 : (env.Unmarshal m).1 = none)
    (h2 : (env.Unmarshal m).2.Candidate = some c) : isCandidateMessage env m = true := by
  unfold isCandidateMessage
  rw [h1, h2]

/-- The candidate branch (lines 154-161). -/
theorem handle_candidate {σ : Type} (env : Env σ) (pc : σ) (m : Bytes) (c : ICECandidateInit)
    (h1 : (env.Unmarshal m).1 = none) (h2 : (env.Unmarshal m).2.Candidate = some c) :
    handleSignalingMessage env (some pc) m =
      ⟨some (env.AddICECandidate pc c).1,
       [Event.Log LogLine.receivedSignaling, Event.Log LogLine.receivedICECandidate,
        Event.AddICECandidate c]
        ++ logIfErr (env.AddICECandidate pc c).2 LogLine.errorAddingICECandidate,
       Outcome.returned⟩ := by
  simp only [handleSignalingMessage, stringToBytes_toString]
  rw [h1, h2]

/-- What follows the candidate test when it fails (lines 164-190). -/
theorem handle_not_candidate {σ : Type} (env : Env σ) (pc : σ) (m : Bytes)
    (h : isCandidateMessage env m = false) :
    handleSignalingMessage env (some pc) m =
      if m.length > 0 then
        match (stringToBytes env.capOf m).slice 0 8 with
        | none => ⟨some pc, [Event.Log LogLine.receivedSignaling], Outcome.panicked⟩
        | some head =>
          if head.toString = offerreq then
            match (env.CreateOffer pc).2 with
            | Except.error _ =>
              ⟨some (env.CreateOffer pc).1,
               [Event.Log LogLine.receivedSignaling, Event.CreateOffer,
                Event.Log LogLine.errorCreatingOffer],
               Outcome.returned⟩
            | Except.ok offer =>
              match (env.SetLocalDescription (env.CreateOffer pc).1 offer).2 with
              | some _ =>
                ⟨some (env.SetLocalDescription (env.CreateOffer pc).1 offer).1,
                 [Event.Log LogLine.receivedSignaling, Event.CreateOffer,
                  Event.SetLocalDescription offer,
                  Event.Log LogLine.errorSettingLocalDescription],
                 Outcome.returned⟩
              | none =>
                ⟨some (env.SetLocalDescription (env.CreateOffer pc).1 offer).1,
                 [Event.Log LogLine.receivedSignaling, Event.CreateOffer,
                  Event.SetLocalDescription offer,
                  Event.WriteMessage TextMessage offer.SDP]
                  ++ logIfErr (env.WriteMessage TextMessage offer.SDP) LogLine.errorSendingOffer,
                 Outcome.returned⟩
          else
            ⟨some (env.SetRemoteDescription pc ⟨SDPType.Answer, m⟩).1,
             [Event.Log LogLine.receivedSignaling,
              Event.SetRemoteDescription ⟨SDPType.Answer, m⟩]
              ++ logIfErr (env.SetRemoteDescription pc ⟨SDPType.Answer, m⟩).2
                  LogLine.errorSettingRemoteDescription,
             Outcome.returned⟩
      else ⟨some pc, [Event.Log LogLine.receivedSignaling], Outcome.returned⟩ := by
  unfold isCandidateMessage at h
  simp only [handleSignalingMessage, stringToBytes_toString, stringToBytes_len]
  split
  · next c h1 h2 => rw [h1, h2] at h; exact absurd h (by simp)
  · rfl

/-- The empty message, when it is no candidate message: the guard of line 164 skips it. -/
theorem handle_empty {σ : Type} (env : Env σ) (pc : σ)
    (h : isCandidateMessage env [] = false) :
    handleSignalingMessage env (some pc) [] =
      ⟨some pc, [Event.Log LogLine.receivedSignaling], Outcome.returned⟩ := by
  rw [handle_not_candidate env pc [] h]
  simp

/-- The answer branch (lines 182-189). -/
theorem handle_answer {σ : Type} (env : Env σ) (pc : σ) (m : Bytes)
    (h : isCandidateMessage env m = false) (hne : m ≠ []) (hm : m.take 8 ≠ offerreq) :
    handleSignalingMessage env (some pc) m =
      ⟨some (env.SetRemoteDescription pc ⟨SDPType.Answer, m⟩).1,
       [Event.Log LogLine.receivedSignaling, Event.SetRemoteDescription ⟨SDPType.Answer, m⟩]
        ++ logIfErr (env.SetRemoteDescription pc ⟨SDPType.Answer, m⟩).2
            LogLine.errorSettingRemoteDescription,
       Outcome.returned⟩ := by
  rw [handle_not_candidate env pc m h, stringToBytes_slice_in_range env.capOf m hne]
  have hpos : m.length > 0 := List.length_pos.mpr hne
  have hh : ¬ (stringToBytes env.capOf m).array.take 8 = offerreq :=
    fun e => hm ((head_eq_offerreq_iff env.capOf m).mp e)
  simp [hpos, ByteSlice.toString, hh]

/-- The offer-request branch (lines 165-181). -/
theorem handle_offerreq {σ : Type} (env : Env σ) (pc : σ) (m : Bytes)
    (h : isCandidateMessage env m = false) (hm : m.take 8 = offerreq) :
    handleSignalingMessage env (some pc) m =
      match (env.CreateOffer pc).2 with
      | Except.error _ =>
        ⟨some (env.CreateOffer pc).1,
         [Event.Log LogLine.receivedSignaling, Event.CreateOffer,
          Event.Log LogLine.errorCreatingOffer],
         Outcome.returned⟩
      | Except.ok offer =>
        match (env.SetLocalDescription (env.CreateOffer pc).1 offer).2 with
        | some _ =>
          ⟨some (env.SetLocalDescription (env.CreateOffer pc).1 offer).1,
           [Event.Log LogLine.receivedSignaling, Event.CreateOffer,
            Event.SetLocalDescription offer,
            Event.Log LogLine.errorSettingLocalDescription],
           Outcome.returned⟩
        | none =>
          ⟨some (env.SetLocalDescription (env.CreateOffer pc).1 offer).1,
           [Event.Log LogLine.receivedSignaling, Event.CreateOffer,
            Event.SetLocalDescription offer,
            Event.WriteMessage TextMessage offer.SDP]
            ++ logIfErr (env.WriteMessage TextMessage offer.SDP) LogLine.errorSendingOffer,
           Outcome.returned⟩ := by
  have hl : (m.take 8).length = 8 := by rw [hm]; rfl
  rw [List.length_take] at hl
  have hlen : 8 ≤ m.length := by omega
  have hpos : m.length > 0 := by omega
  rw [handle_not_candidate env pc m h,
    stringToBytes_slice_in_range env.capOf m (List.length_pos.mp hpos)]
  have hh : (stringToBytes env.capOf m).array.take 8 = offerreq :=
    (head_eq_offerreq_iff env.capOf m).mpr hm
  simp [hpos, ByteSlice.toString, hh]

/-- A text that begins with the marker is no candidate message for a decoder that rejects
what is not JSON. -/
theorem offerreq_not_candidate {σ : Type} (env : Env σ) (m : Bytes)
    (hj : RejectsNonJSON env.Unmarshal) (hm : m.take 8 = offerreq) :
    isCandidateMessage env m = false := by
  have hhead : ∀ b, m.head? = some b → jsonValueStart b = false := by
    intro b hb
    cases m with
    | nil => simp at hb
    | cons a t =>
      simp only [List.head?_cons, Option.some.injEq] at hb
      simp only [List.take_succ_cons, offerreq, List.cons.injEq] at hm
      rw [← hb, hm.1]
      decide
  have hne := hj m hhead
  unfold isCandidateMessage
  split
  · next c h1 h2 => exact absurd h1 hne
  · rfl

/-! ## The read loop -/

/-- One text message handled without a panic: the loop goes on with the rest. -/
theorem loop_text_returned {σ : Type} (env : Env σ) (pc : Option σ) (payload : Bytes)
    (rest : List Read)
    (h : (handleSignalingMessage env pc payload).outcome = Outcome.returned) :
    handleWebSocketLoop env pc (Read.message TextMessage payload :: rest) =
      ⟨(handleWebSocketLoop env (handleSignalingMessage env pc payload).peerConnection
          rest).peerConnection,
       Event.ReadMessage :: (handleSignalingMessage env pc payload).trace ++
         (handleWebSocketLoop env (handleSignalingMessage env pc payload).peerConnection
           rest).trace,
       (handleWebSocketLoop env (handleSignalingMessage env pc payload).peerConnection
          rest).outcome⟩ := by
  simp only [handleWebSocketLoop, if_true]
  rw [h]

/-- The message handler never ends the process. -/
theorem handle_outcome_ne_exited {σ : Type} (env : Env σ) (pc : Option σ) (m : Bytes) :
    (handleSignalingMessage env pc m).outcome ≠ Outcome.exited := by
  cases pc with
  | none => simp [handleSignalingMessage]
  | some s =>
    cases hc : isCandidateMessage env m with
    | true =>
      obtain ⟨c, h1, h2⟩ := isCandidateMessage_eq_true env m hc
      rw [handle_candidate env s m c h1 h2]
      simp
    | false =>
      rw [handle_not_candidate env s m hc]
      repeat (first | split | simp)

/-- The read loop never ends the process. -/
theorem loop_outcome_ne_exited {σ : Type} (env : Env σ) (reads : List Read) :
    ∀ pc : Option σ, (handleWebSocketLoop env pc reads).outcome ≠ Outcome.exited := by
  induction reads with
  | nil => intro pc; simp [handleWebSocketLoop]
  | cons r rest ih =>
    intro pc
    cases r with
    | error => simp [handleWebSocketLoop]
    | message t payload =>
      simp only [handleWebSocketLoop]
      split
      · split
        · exact ih _
        · next o hne =>
          exact handle_outcome_ne_exited env pc payload
      · split
        · simp
        · exact ih _

/-- A property of events that holds of what the loop itself does and of what every handled
text message does holds of the whole trace of the loop. -/
theorem loop_trace_forall {σ : Type} (env : Env σ) (P : Event → Prop)
    (hread : P Event.ReadMessage) (hlog : ∀ l, P (Event.Log l)) (reads : List Read)
    (h : ∀ payload, Read.message TextMessage payload ∈ reads →
      ∀ pc : Option σ, ∀ e ∈ (handleSignalingMessage env pc payload).trace, P e) :
    ∀ pc : Option σ, ∀ e ∈ (handleWebSocketLoop env pc reads).trace, P e := by
  induction reads with
  | nil =>
    intro pc e he
    simp only [handleWebSocketLoop, List.mem_cons, List.mem_singleton, List.not_mem_nil,
      or_false] at he
    rcases he with rfl | rfl
    · exact hread
    · exact hlog _
  | cons r rest ih =>
    have ih2 := ih (fun payload hp => h payload (List.mem_cons_of_mem _ hp))
    intro pc e he
    cases r with
    | error =>
      simp only [handleWebSocketLoop, List.mem_cons, List.mem_singleton, List.not_mem_nil,
        or_false] at he
      rcases he with rfl | rfl
      · exact hread
      · exact hlog _
    | message t payload =>
      simp only [handleWebSocketLoop] at he
      split at he
      · next ht =>
        subst ht
        have hp := h payload (List.mem_cons_self _ _) pc
        split at he
        · simp only [List.mem_cons, List.mem_append] at he
          rcases he with (rfl | he) | he
          · exact hread
          · exact hp e he
          · exact ih2 _ e he
        · simp only [List.mem_cons] at he
          rcases he with rfl | he
          · exact hread
          · exact hp e he
      · split at he
        · simp only [List.mem_cons, List.mem_singleton, List.not_mem_nil, or_false] at he
          rcases he with rfl | rfl
          · exact hread
          · exact hlog _
        · simp only [List.mem_cons] at he
          rcases he with rfl | he
          · exact hread
          · exact ih2 _ e he

/-! ## Classification -/

theorem mem_logIfErr (err : Option GoError) (line : LogLine) (e : Event)
    (h : e ∈ logIfErr err line) : e = Event.Log line := by
  cases err with
  | none => simp [logIfErr] at h
  | some x => simpa [logIfErr] using h

/-- Handling a candidate message calls no description operation, whatever the session. -/
theorem candidate_trace_no_description {σ : Type} (env : Env σ) (pc : Option σ) (m : Bytes)
    (hc : isCandidateMessage env m = true) :
    ∀ e ∈ (handleSignalingMessage env pc m).trace, e.isDescriptionOp = false := by
  intro e he
  cases pc with
  | none =>
    simp only [handleSignalingMessage, List.mem_singleton] at he
    subst he; rfl
  | some s =>
    obtain ⟨c, h1, h2⟩ := isCandidateMessage_eq_true env m hc
    rw [handle_candidate env s m c h1 h2] at he
    simp only [List.mem_append, List.mem_cons, List.mem_singleton, List.not_mem_nil,
      or_false] at he
    rcases he with (rfl | rfl | rfl) | he
    · rfl
    · rfl
    · rfl
    · rw [mem_logIfErr _ _ e he]; rfl

/-- Handling a message that is no candidate message never calls `AddICECandidate`. -/
theorem not_candidate_trace_no_candidateOp {σ : Type} (env : Env σ) (pc : Option σ)
    (m : Bytes) (hc : isCandidateMessage env m = false) :
    ∀ e ∈ (handleSignalingMessage env pc m).trace, e.isCandidateOp = false := by
  intro e he
  cases pc with
  | none =>
    simp only [handleSignalingMessage, List.mem_singleton] at he
    subst he; rfl
  | some s =>
    rw [handle_not_candidate env s m hc] at he
    split at he
    · split at he
      · simp only [List.mem_singleton] at he
        subst he; rfl
      · split at he
        · split at he
          · simp only [List.mem_cons, List.mem_singleton, List.not_mem_nil, or_false] at he
            rcases he with rfl | rfl | rfl <;> rfl
          · split at he
            · simp only [List.mem_cons, List.mem_singleton, List.not_mem_nil, or_false] at he
              rcases he with rfl | rfl | rfl | rfl <;> rfl
            · simp only [List.mem_append, List.mem_cons, List.mem_singleton,
                List.not_mem_nil, or_false] at he
              rcases he with (rfl | rfl | rfl | rfl) | he
              · rfl
              · rfl
              · rfl
              · rfl
              · rw [mem_logIfErr _ _ e he]; rfl
        · simp only [List.mem_append, List.mem_cons, List.mem_singleton, List.not_mem_nil,
            or_false] at he
          rcases he with (rfl | rfl) | he
          · rfl
          · rfl
          · rw [mem_logIfErr _ _ e he]; rfl
    · simp only [List.mem_singleton] at he
      subst he; rfl

/-- C1: with an active session, handling a candidate message invokes none of CreateOffer,
SetLocalDescription, SetRemoteDescription, and handling any other message never invokes
AddICECandidate; so a read loop over candidate messages only issues no description
operation, and a read loop over messages none of which is a candidate message registers no
candidate, whatever state the session is in. -/
theorem handleSignalingMessage_classification_exclusive {σ : Type} (env : Env σ) (pc : σ)
    (message : Bytes) :
    (isCandidateMessage env message = true →
      ∀ e ∈ (handleSignalingMessage env (some pc) message).trace, e.isDescriptionOp = false) ∧
    (isCandidateMessage env message = false →
      ∀ e ∈ (handleSignalingMessage env (some pc) message).trace, e.isCandidateOp = false) ∧
    (∀ reads : List Read,
      (∀ payload, Read.message TextMessage payload ∈ reads →
        isCandidateMessage env payload = true) →
      ∀ e ∈ (handleWebSocketLoop env (some pc) reads).trace, e.isDescriptionOp = false) ∧
    (∀ reads : List Read,
      (∀ payload, Read.message TextMessage payload ∈ reads →
        isCandidateMessage env payload = false) →
      ∀ e ∈ (handleWebSocketLoop env (some pc) reads).trace, e.isCandidateOp = false) := by
  refine ⟨candidate_trace_no_description env (some pc) message,
    not_candidate_trace_no_candidateOp env (some pc) message, ?_, ?_⟩
  · intro reads h
    exact loop_trace_forall env (fun e => e.isDescriptionOp = false) rfl (fun _ => rfl) reads
      (fun payload hp s => candidate_trace_no_description env s payload (h payload hp)) (some pc)
  · intro reads h
    exact loop_trace_forall env (fun e => e.isCandidateOp = false) rfl (fun _ => rfl) reads
      (fun payload hp s => not_candidate_trace_no_candidateOp env s payload (h payload hp))
      (some pc)

/-- Witness for C1: the candidate message of scenario 1 and the text `hello world`, each
handled on a fresh session. -/
theorem handleSignalingMessage_classification_exclusive_witness :
    isCandidateMessage sampleEnv candidateJSON = true ∧
    isCandidateMessage sampleEnv helloWorld = false ∧
    (∀ e ∈ (handleSignalingMessage sampleEnv (some freshPeer) candidateJSON).trace,
      e.isDescriptionOp = false) ∧
    (∀ e ∈ (handleSignalingMessage sampleEnv (some freshPeer) helloWorld).trace,
      e.isCandidateOp = false) :=
  ⟨by decide, by decide,
   (handleSignalingMessage_classification_exclusive sampleEnv freshPeer candidateJSON).1
     (by decide),
   (handleSignalingMessage_classification_exclusive sampleEnv freshPeer helloWorld).2.1
     (by decide)⟩

theorem sent_logIfErr (err : Option GoError) (line : LogLine) : sent (logIfErr err line) = [] := by
  cases err <;> rfl

theorem sent_append (a b : List Event) : sent (a ++ b) = sent a ++ sent b := by
  induction a with
  | nil => rfl
  | cons e t ih => cases e <;> simp [sent, ih]

theorem sessionCalls_logIfErr (err : Option GoError) (line : LogLine) :
    sessionCalls (logIfErr err line) = [] := by
  cases err <;> rfl

theorem sessionCalls_append (a b : List Event) :
    sessionCalls (a ++ b) = sessionCalls a ++ sessionCalls b := by
  simp [sessionCalls]

/-- C7: when no session exists (peerConnection is nil), handling any message sends nothing,
calls no session operation, leaves the session absent and returns normally; the only effect
is the log line. -/
theorem handleSignalingMessage_no_session {σ : Type} (env : Env σ) (message : Bytes) :
    (handleSignalingMessage env none message).trace = [Event.Log LogLine.peerConnectionNil] ∧
    sent (handleSignalingMessage env none message).trace = [] ∧
    sessionCalls (handleSignalingMessage env none message).trace = [] ∧
    (handleSignalingMessage env none message).peerConnection = none ∧
    (handleSignalingMessage env none message).outcome = Outcome.returned :=
  ⟨rfl, rfl, rfl, rfl, rfl⟩

/-- C8: with an active session, a message that unmarshals without error and with a non-null
candidate field makes the handler call AddICECandidate with that candidate exactly once and
nothing else on the session, send nothing, and return normally, whether or not the
registration reports an error. -/
theorem handleSignalingMessage_candidate_registered_once {σ : Type} (env : Env σ) (pc : σ)
    (message : Bytes) (c : ICECandidateInit)
    (h1 : (env.Unmarshal message).1 = none)
    (h2 : (env.Unmarshal message).2.Candidate = some c) :
    sessionCalls (handleSignalingMessage env (some pc) message).trace
      = [Event.AddICECandidate c] ∧
    sent (handleSignalingMessage env (some pc) message).trace = [] ∧
    (handleSignalingMessage env (some pc) message).outcome = Outcome.returned ∧
    (handleSignalingMessage env (some pc) message).peerConnection
      = some (env.AddICECandidate pc c).1 := by
  rw [handle_candidate env pc message c h1 h2]
  refine ⟨?_, ?_, rfl, rfl⟩
  · simp only [sessionCalls_append, sessionCalls_logIfErr]
    rfl
  · simp only [sent_append, sent_logIfErr]
    rfl

/-- Witness for C8: the candidate message of scenario 1 on a fresh session with no
description set, where the registration reports an error. -/
theorem handleSignalingMessage_candidate_registered_once_witness :
    freshPeer.localDescription = none ∧ freshPeer.remoteDescription = none ∧
    (sampleEnv.AddICECandidate freshPeer sampleCandidate).2 ≠ none ∧
    sessionCalls (handleSignalingMessage sampleEnv (some freshPeer) candidateJSON).trace
      = [Event.AddICECandidate sampleCandidate] ∧
    sent (handleSignalingMessage sampleEnv (some freshPeer) candidateJSON).trace = [] ∧
    (handleSignalingMessage sampleEnv (some freshPeer) candidateJSON).outcome
      = Outcome.returned :=
  ⟨rfl, rfl, by decide,
   (handleSignalingMessage_candidate_registered_once sampleEnv freshPeer candidateJSON
     sampleCandidate (by decide) (by decide)).1,
   (handleSignalingMessage_candidate_registered_once sampleEnv freshPeer candidateJSON
     sampleCandidate (by decide) (by decide)).2.1,
   (handleSignalingMessage_candidate_registered_once sampleEnv freshPeer candidateJSON
     sampleCandidate (by decide) (by decide)).2.2.1⟩

/-! ## Offer requests -/

theorem sampleEnv_rejectsNonJSON : RejectsNonJSON sampleEnv.Unmarshal := by
  intro m hm
  by_cases h : m = candidateJSON
  · subst h
    exact absurd (hm 123 rfl) (by decide)
  · simp [sampleEnv, h]

/-- Counterexample to C2 as stated: on a session whose CreateOffer reports an error (here a
closed connection) the offer request `offerreqXYZ` produces no outbound message at all. -/
theorem handleSignalingMessage_offer_request_counterexample :
    ¬ ∃ body, sent (handleSignalingMessage sampleEnv (some closedPeer) offerreqXYZ).trace
      = [body] := by
  have h : sent (handleSignalingMessage sampleEnv (some closedPeer) offerreqXYZ).trace = [] := by
    decide
  rintro ⟨body, hb⟩
  rw [h] at hb
  exact absurd hb (by simp)

/-- C2, amended: with an active session and a JSON decoder that rejects what is not JSON, a
message whose first 8 bytes are `offerreq` is handled exactly as the bare marker is (the
bytes after it have no influence) and the handler returns.  When CreateOffer and
SetLocalDescription succeed, exactly one WriteMessage is issued, a text message whose body is
the SDP of the offer CreateOffer returned (non-empty when that SDP is), and the session is
left in the state in which that offer is its local description; when that write succeeds
nothing else happens, and when it fails the error is logged.  When CreateOffer fails the
error is logged and neither SetLocalDescription nor WriteMessage is issued; when
SetLocalDescription fails the error is logged and no WriteMessage is issued. -/
theorem handleSignalingMessage_offer_request {σ : Type} (env : Env σ) (pc : σ)
    (message : Bytes) (LocalDescription : σ → Option SessionDescription)
    (hj : RejectsNonJSON env.Unmarshal)
    (hlaw : ∀ s d, (env.SetLocalDescription s d).2 = none →
      LocalDescription (env.SetLocalDescription s d).1 = some d)
    (hm : message.take 8 = offerreq) :
    handleSignalingMessage env (some pc) message = handleSignalingMessage env (some pc) offerreq ∧
    (handleSignalingMessage env (some pc) message).outcome = Outcome.returned ∧
    (∀ offer, (env.CreateOffer pc).2 = Except.ok offer →
      (env.SetLocalDescription (env.CreateOffer pc).1 offer).2 = none →
      (env.WriteMessage TextMessage offer.SDP = none →
        (handleSignalingMessage env (some pc) message).trace =
          [Event.Log LogLine.receivedSignaling, Event.CreateOffer,
           Event.SetLocalDescription offer, Event.WriteMessage TextMessage offer.SDP]) ∧
      (∀ err, env.WriteMessage TextMessage offer.SDP = some err →
        (handleSignalingMessage env (some pc) message).trace =
          [Event.Log LogLine.receivedSignaling, Event.CreateOffer,
           Event.SetLocalDescription offer, Event.WriteMessage TextMessage offer.SDP,
           Event.Log LogLine.errorSendingOffer]) ∧
      (handleSignalingMessage env (some pc) message).trace.filter
          (fun e => e matches Event.WriteMessage _ _)
        = [Event.WriteMessage TextMessage offer.SDP] ∧
      sent (handleSignalingMessage env (some pc) message).trace = [offer.SDP] ∧
      (offer.SDP ≠ [] →
        ∀ body ∈ sent (handleSignalingMessage env (some pc) message).trace, body ≠ []) ∧
      sessionCalls (handleSignalingMessage env (some pc) message).trace
        = [Event.CreateOffer, Event.SetLocalDescription offer] ∧
      ∃ s, (handleSignalingMessage env (some pc) message).peerConnection = some s ∧
        LocalDescription s = some offer) ∧
    (∀ err, (env.CreateOffer pc).2 = Except.error err →
      (handleSignalingMessage env (some pc) message).trace =
        [Event.Log LogLine.receivedSignaling, Event.CreateOffer,
         Event.Log LogLine.errorCreatingOffer] ∧
      sent (handleSignalingMessage env (some pc) message).trace = []) ∧
    (∀ offer err, (env.CreateOffer pc).2 = Except.ok offer →
      (env.SetLocalDescription (env.CreateOffer pc).1 offer).2 = some err →
      (handleSignalingMessage env (some pc) message).trace =
        [Event.Log LogLine.receivedSignaling, Event.CreateOffer,
         Event.SetLocalDescription offer, Event.Log LogLine.errorSettingLocalDescription] ∧
      sent (handleSignalingMessage env (some pc) message).trace = []) := by
  have hnc := offerreq_not_candidate env message hj hm
  have hnc0 := offerreq_not_candidate env offerreq hj rfl
  have hb := handle_offerreq env pc message hnc hm
  have hb0 := handle_offerreq env pc offerreq hnc0 rfl
  refine ⟨by rw [hb, hb0], ?_, ?_, ?_, ?_⟩
  · rw [hb]
    repeat (first | split | rfl)
  · intro offer ho hs
    rw [hb]
    simp only [ho, hs]
    have hw : sent (logIfErr (env.WriteMessage TextMessage offer.SDP)
        LogLine.errorSendingOffer) = [] := sent_logIfErr _ _
    have hw2 : sessionCalls (logIfErr (env.WriteMessage TextMessage offer.SDP)
        LogLine.errorSendingOffer) = [] := sessionCalls_logIfErr _ _
    refine ⟨?_, ?_, ?_, ?_, ?_, ?_, _, rfl, hlaw _ _ hs⟩
    · intro hok
      rw [hok]
      rfl
    · intro err herr
      rw [herr]
      rfl
    · cases env.WriteMessage TextMessage offer.SDP <;> simp [logIfErr]
    · rw [sent_append, hw]; rfl
    · intro hne body hbody
      rw [sent_append, hw] at hbody
      simp only [sent, List.append_nil, List.mem_singleton] at hbody
      rw [hbody]; exact hne
    · rw [sessionCalls_append, hw2]; rfl
  · intro err ho
    rw [hb, ho]
    exact ⟨rfl, rfl⟩
  · intro offer err ho hs
    rw [hb, ho]
    simp only []
    rw [hs]
    exact ⟨rfl, rfl⟩

/-- Witness for C2: the text `offerreqXYZ` on a fresh session, once on a connection that
takes the write and once on a connection that refuses it. -/
theorem handleSignalingMessage_offer_request_witness :
    handleSignalingMessage sampleEnv (some freshPeer) offerreqXYZ
      = handleSignalingMessage sampleEnv (some freshPeer) offerreq ∧
    (handleSignalingMessage sampleEnv (some freshPeer) offerreqXYZ).trace =
      [Event.Log LogLine.receivedSignaling, Event.CreateOffer,
       Event.SetLocalDescription ⟨SDPType.Offer, sdpStart⟩,
       Event.WriteMessage TextMessage sdpStart] ∧
    (handleSignalingMessage brokenConnEnv (some freshPeer) offerreqXYZ).trace =
      [Event.Log LogLine.receivedSignaling, Event.CreateOffer,
       Event.SetLocalDescription ⟨SDPType.Offer, sdpStart⟩,
       Event.WriteMessage TextMessage sdpStart, Event.Log LogLine.errorSendingOffer] :=
  ⟨(handleSignalingMessage_offer_request sampleEnv freshPeer offerreqXYZ
      (fun s => s.localDescription) sampleEnv_rejectsNonJSON
      (fun _ _ _ => rfl) (by decide)).1,
   ((handleSignalingMessage_offer_request sampleEnv freshPeer offerreqXYZ
      (fun s => s.localDescription) sampleEnv_rejectsNonJSON
      (fun _ _ _ => rfl) (by decide)).2.2.1 ⟨SDPType.Offer, sdpStart⟩ rfl rfl).1 rfl,
   ((handleSignalingMessage_offer_request brokenConnEnv freshPeer offerreqXYZ
      (fun s => s.localDescription) sampleEnv_rejectsNonJSON
      (fun _ _ _ => rfl) (by decide)).2.2.1 ⟨SDPType.Offer, sdpStart⟩ rfl rfl).2.1
      "closed" rfl⟩

/-! ## Answers, short messages and the empty message -/

/-- C3: with an active session, for every non-empty text message that is no candidate message
and does not begin with `offerreq`, the handler calls SetRemoteDescription exactly once, with
type answer and the message text itself as the SDP, calls nothing else on the session,
writes nothing to the connection, and returns. -/
theorem handleSignalingMessage_answer_committed_verbatim {σ : Type} (env : Env σ) (pc : σ)
    (message : Bytes) (hne : message ≠ []) (hc : isCandidateMessage env message = false)
    (hm : message.take 8 ≠ offerreq) :
    sessionCalls (handleSignalingMessage env (some pc) message).trace
      = [Event.SetRemoteDescription ⟨SDPType.Answer, message⟩] ∧
    sent (handleSignalingMessage env (some pc) message).trace = [] ∧
    (∀ t d, Event.WriteMessage t d ∉ (handleSignalingMessage env (some pc) message).trace) ∧
    (handleSignalingMessage env (some pc) message).outcome = Outcome.returned ∧
    (handleSignalingMessage env (some pc) message).peerConnection
      = some (env.SetRemoteDescription pc ⟨SDPType.Answer, message⟩).1 := by
  rw [handle_answer env pc message hc hne hm]
  refine ⟨?_, ?_, ?_, rfl, rfl⟩
  · simp only [sessionCalls_append, sessionCalls_logIfErr]
    rfl
  · simp only [sent_append, sent_logIfErr]
    rfl
  · intro t d hmem
    simp only [List.mem_append, List.mem_cons, List.mem_singleton, List.not_mem_nil,
      or_false] at hmem
    rcases hmem with (h | h) | h
    · exact absurd h (by simp)
    · exact absurd h (by simp)
    · exact absurd (mem_logIfErr _ _ _ h) (by simp)

/-- Witness for C3: the three-byte text `abc` and the 11-byte text `hello world` on a fresh
session. -/
theorem handleSignalingMessage_answer_committed_verbatim_witness :
    sessionCalls (handleSignalingMessage sampleEnv (some freshPeer) abc).trace
      = [Event.SetRemoteDescription ⟨SDPType.Answer, abc⟩] ∧
    sent (handleSignalingMessage sampleEnv (some freshPeer) abc).trace = [] ∧
    sessionCalls (handleSignalingMessage sampleEnv (some freshPeer) helloWorld).trace
      = [Event.SetRemoteDescription ⟨SDPType.Answer, helloWorld⟩] :=
  ⟨(handleSignalingMessage_answer_committed_verbatim sampleEnv freshPeer abc (by decide)
      (by decide) (by decide)).1,
   (handleSignalingMessage_answer_committed_verbatim sampleEnv freshPeer abc (by decide)
      (by decide) (by decide)).2.1,
   (handleSignalingMessage_answer_committed_verbatim sampleEnv freshPeer helloWorld (by decide)
      (by decide) (by decide)).1⟩

/-- C10, at the failing input: for the three-byte text `abc` the slice `msg[0:8]` has eight
bytes, of which the last five are spare zero bytes of the allocation and no part of the
message, whatever capacity the runtime chose; likewise the seven bytes `offerre` are compared
together with one spare byte.  The slice is in range of the capacity, so the handler does not
panic and commits `abc` as an answer. -/
theorem handleSignalingMessage_short_text_slice_past_message (capOf : Nat → Nat) :
    (stringToBytes capOf abc).len = 3 ∧
    ((stringToBytes capOf abc).slice 0 8).map ByteSlice.len = some 8 ∧
    ((stringToBytes capOf abc).slice 0 8).map ByteSlice.toString
      = some (abc ++ [0, 0, 0, 0, 0]) ∧
    ((stringToBytes capOf offerre).slice 0 8).map ByteSlice.toString
      = some (offerre ++ [0]) ∧
    (handleSignalingMessage sampleEnv (some freshPeer) abc).outcome = Outcome.returned ∧
    sessionCalls (handleSignalingMessage sampleEnv (some freshPeer) abc).trace
      = [Event.SetRemoteDescription ⟨SDPType.Answer, abc⟩] := by
  have ha : abc ≠ [] := by decide
  have ho : offerre ≠ [] := by decide
  refine ⟨rfl, ?_, ?_, ?_, by decide, by decide⟩
  · rw [stringToBytes_slice_in_range capOf abc ha]
    rfl
  · rw [stringToBytes_slice_in_range capOf abc ha]
    simp only [Option.map, ByteSlice.toString]
    rw [stringToBytes_head_short capOf abc ha (by decide)]
    rfl
  · rw [stringToBytes_slice_in_range capOf offerre ho]
    simp only [Option.map, ByteSlice.toString]
    rw [stringToBytes_head_short capOf offerre ho (by decide)]
    rfl

/-- Counterexample to C9 as stated: handling the empty text on an active session calls
nothing on the session and logs no remote-description error. -/
theorem handleSignalingMessage_empty_counterexample :
    isCandidateMessage sampleEnv [] = false ∧
    Event.SetRemoteDescription ⟨SDPType.Answer, []⟩
      ∉ (handleSignalingMessage sampleEnv (some freshPeer) []).trace ∧
    Event.Log LogLine.errorSettingRemoteDescription
      ∉ (handleSignalingMessage sampleEnv (some freshPeer) []).trace ∧
    sessionCalls (handleSignalingMessage sampleEnv (some freshPeer) []).trace = [] := by
  decide

/-- C9, amended: with an active session, a text message that is no candidate message and does
not begin with `offerreq` is treated as an SDP answer when it is non-empty: the handler calls
SetRemoteDescription with type answer and the text itself, logs the error if there is one,
and returns; the empty text is skipped by the length guard: nothing is called, the session is
unchanged and the handler returns. -/
theorem handleSignalingMessage_unrecognised_text {σ : Type} (env : Env σ) (pc : σ)
    (message : Bytes) (hc : isCandidateMessage env message = false)
    (hm : message.take 8 ≠ offerreq) :
    (message ≠ [] →
      handleSignalingMessage env (some pc) message =
        ⟨some (env.SetRemoteDescription pc ⟨SDPType.Answer, message⟩).1,
         [Event.Log LogLine.receivedSignaling,
          Event.SetRemoteDescription ⟨SDPType.Answer, message⟩]
          ++ logIfErr (env.SetRemoteDescription pc ⟨SDPType.Answer, message⟩).2
              LogLine.errorSettingRemoteDescription,
         Outcome.returned⟩) ∧
    (message = [] →
      handleSignalingMessage env (some pc) message =
        ⟨some pc, [Event.Log LogLine.receivedSignaling], Outcome.returned⟩) := by
  refine ⟨fun hne => handle_answer env pc message hc hne hm, ?_⟩
  · intro he
    subst he
    exact handle_empty env pc hc

/-- Witness for C9: the text `hello world` and the empty text on a fresh session. -/
theorem handleSignalingMessage_unrecognised_text_witness :
    (handleSignalingMessage sampleEnv (some freshPeer) helloWorld).trace =
      [Event.Log LogLine.receivedSignaling,
       Event.SetRemoteDescription ⟨SDPType.Answer, helloWorld⟩,
       Event.Log LogLine.errorSettingRemoteDescription] ∧
    (handleSignalingMessage sampleEnv (some freshPeer) []).trace
      = [Event.Log LogLine.receivedSignaling] :=
  ⟨by
    rw [(handleSignalingMessage_unrecognised_text sampleEnv freshPeer helloWorld (by decide)
      (by decide)).1 (by decide)]
    rfl,
   by
    rw [(handleSignalingMessage_unrecognised_text sampleEnv freshPeer [] (by decide)
      (by decide)).2 rfl]⟩

/-! ## A failed remote description and the read loop -/

/-- Counterexample to C6 as stated: the text `hello world` is handled as an answer and
SetRemoteDescription rejects it, yet the loop reads on: the offer request that follows is
read and answered, three reads in all. -/
theorem handleWebSocketLoop_failed_answer_counterexample :
    (sampleEnv.SetRemoteDescription freshPeer ⟨SDPType.Answer, helloWorld⟩).2 ≠ none ∧
    readCount (handleWebSocketLoop sampleEnv (some freshPeer)
      [Read.message TextMessage helloWorld, Read.message TextMessage offerreqXYZ]).trace = 3 ∧
    sent (handleWebSocketLoop sampleEnv (some freshPeer)
      [Read.message TextMessage helloWorld, Read.message TextMessage offerreqXYZ]).trace
      = [sdpStart] := by
  decide

/-- C6, amended: when an answer-classified message is handled and SetRemoteDescription
reports an error, the error is logged and dropped: the handler returns normally, and the read
loop of handleWebSocket goes on to read the next message; neither the handler nor the loop
exits the process. -/
theorem handleWebSocketLoop_failed_answer_continues {σ : Type} (env : Env σ) (pc : σ)
    (message : Bytes) (rest : List Read) (err : GoError)
    (hc : isCandidateMessage env message = false) (hne : message ≠ [])
    (hm : message.take 8 ≠ offerreq)
    (hfail : (env.SetRemoteDescription pc ⟨SDPType.Answer, message⟩).2 = some err) :
    handleSignalingMessage env (some pc) message =
      ⟨some (env.SetRemoteDescription pc ⟨SDPType.Answer, message⟩).1,
       [Event.Log LogLine.receivedSignaling,
        Event.SetRemoteDescription ⟨SDPType.Answer, message⟩,
        Event.Log LogLine.errorSettingRemoteDescription],
       Outcome.returned⟩ ∧
    (handleWebSocketLoop env (some pc) (Read.message TextMessage message :: rest)).trace =
      [Event.ReadMessage, Event.Log LogLine.receivedSignaling,
       Event.SetRemoteDescription ⟨SDPType.Answer, message⟩,
       Event.Log LogLine.errorSettingRemoteDescription] ++
      (handleWebSocketLoop env
        (some (env.SetRemoteDescription pc ⟨SDPType.Answer, message⟩).1) rest).trace ∧
    1 < readCount
      (handleWebSocketLoop env (some pc) (Read.message TextMessage message :: rest)).trace ∧
    (handleWebSocketLoop env (some pc) (Read.message TextMessage message :: rest)).outcome
      ≠ Outcome.exited := by
  have hh : handleSignalingMessage env (some pc) message =
      ⟨some (env.SetRemoteDescription pc ⟨SDPType.Answer, message⟩).1,
       [Event.Log LogLine.receivedSignaling,
        Event.SetRemoteDescription ⟨SDPType.Answer, message⟩,
        Event.Log LogLine.errorSettingRemoteDescription],
       Outcome.returned⟩ := by
    rw [handle_answer env pc message hc hne hm, hfail]
    rfl
  have hl := loop_text_returned env (some pc) message rest (by rw [hh])
  rw [hh] at hl
  have hread : ∀ (s : Option σ) (l : List Read),
      0 < readCount (handleWebSocketLoop env s l).trace := by
    intro s l
    cases l with
    | nil => simp [handleWebSocketLoop, readCount]
    | cons r t =>
      cases r with
      | error => simp [handleWebSocketLoop, readCount]
      | message ty pl =>
        simp only [handleWebSocketLoop, readCount]
        repeat (first | split | simp)
  refine ⟨hh, ?_, ?_, loop_outcome_ne_exited env _ _⟩
  · rw [hl]
  · rw [hl]
    have := hread (some (env.SetRemoteDescription pc ⟨SDPType.Answer, message⟩).1) rest
    simp only [readCount, List.cons_append, List.nil_append] at this ⊢
    simp only [List.count_cons, beq_self_eq_true, if_true]
    omega

/-- Witness for C6: the text `hello world` followed by an offer request on a fresh session. -/
theorem handleWebSocketLoop_failed_answer_continues_witness :
    1 < readCount (handleWebSocketLoop sampleEnv (some freshPeer)
      [Read.message TextMessage helloWorld, Read.message TextMessage offerreqXYZ]).trace :=
  (handleWebSocketLoop_failed_answer_continues sampleEnv freshPeer helloWorld
    [Read.message TextMessage offerreqXYZ] "malformed description" (by decide) (by decide)
    (by decide) rfl).2.2.1

/-! ## The encoder bridge: what reaches the track -/

theorem samplesWritten_append (a b : List BridgeEvent) :
    samplesWritten (a ++ b) = samplesWritten a ++ samplesWritten b := by
  induction a with
  | nil => rfl
  | cons e t ih => cases e <;> simp [samplesWritten, ih]

theorem samplesWritten_deferredTeardown (c : Option Unit) :
    samplesWritten (deferredTeardown c) = [] := by
  cases c <;> rfl

theorem writeErrAt_zero (track : Track) (written : List Sample) (f : Bytes) (rest : List Bytes) :
    writeErrAt track written (f :: rest) 0 = track.WriteSample written (sampleOf f) := by
  have hs : sampleOf f = ⟨f, 33 * Millisecond⟩ := rfl
  simp [writeErrAt, hs]

theorem writeErrAt_succ (track : Track) (written : List Sample) (f : Bytes) (rest : List Bytes)
    (i : Nat) :
    writeErrAt track written (f :: rest) (i + 1)
      = writeErrAt track (written ++ [sampleOf f]) rest i := by
  have hs : sampleOf f = ⟨f, 33 * Millisecond⟩ := rfl
  simp [writeErrAt, hs]

/-- The samples the frame loop hands to the track are the first `k` frames, in order, where
every write before the last one succeeded and, unless all frames were written, the last one
failed. -/
theorem frameLoop_written (track : Track) (frames : List Bytes) :
    ∀ written : List Sample, ∃ k, k ≤ frames.length ∧
      samplesWritten (frameLoop track written frames) = (frames.take k).map sampleOf ∧
      (∀ i, i + 1 < k → writeErrAt track written frames i = none) ∧
      (k < frames.length → ∃ j, k = j + 1 ∧ writeErrAt track written frames j ≠ none) ∧
      ((∀ i, i < frames.length → writeErrAt track written frames i = none) →
        k = frames.length) := by
  induction frames with
  | nil =>
    intro written
    exact ⟨0, Nat.le_refl _, rfl, fun i hi => absurd hi (by omega),
      fun h => absurd h (by simp), fun _ => rfl⟩
  | cons f rest ih =>
    intro written
    cases hw : track.WriteSample written (sampleOf f) with
    | some err =>
      refine ⟨1, by simp, ?_, fun i hi => absurd hi (by omega), ?_, ?_⟩
      · simp [frameLoop, hw, samplesWritten]
      · intro _
        exact ⟨0, rfl, by rw [writeErrAt_zero, hw]; simp⟩
      · intro hall
        have h0 := hall 0 (by simp)
        rw [writeErrAt_zero, hw] at h0
        exact absurd h0 (by simp)
    | none =>
      obtain ⟨k, hk, hs, hbefore, hlast, hall⟩ := ih (written ++ [sampleOf f])
      refine ⟨k + 1, by simpa using hk, ?_, ?_, ?_, ?_⟩
      · simp [frameLoop, hw, samplesWritten, hs]
      · intro i hi
        cases i with
        | zero => rw [writeErrAt_zero, hw]
        | succ j =>
          rw [writeErrAt_succ]
          exact hbefore j (by omega)
      · intro hlt
        obtain ⟨j, hj, hjf⟩ := hlast (by simpa using hlt)
        exact ⟨j + 1, by omega, by rw [writeErrAt_succ]; exact hjf⟩
      · intro h
        have hk2 := hall (fun i hi => by
          have := h (i + 1) (by simpa using hi)
          rwa [writeErrAt_succ] at this)
        simp [hk2]

/-- The run of `captureAndStream` once the process has started and the header was decoded. -/
theorem captureAndStream_started (enc : Encoder) (track : Track) (ivf : IVFStream)
    (h1 : enc.StdoutPipe = none) (h2 : enc.StderrPipe = none) (h3 : enc.Start = none)
    (h4 : enc.NewWith = Except.ok ivf) :
    captureAndStream enc track =
      ⟨BridgeEvent.Start :: frameLoop track [] ivf.frames ++
        [BridgeEvent.Kill, BridgeEvent.Wait], Outcome.returned⟩ := by
  simp [captureAndStream, h1, h2, h3, h4, deferredTeardown]

/-- C4: when the process has started and the source yields the frames `frames` and then ends
(end-of-stream or parse error), the samples handed to the track are the first `k` frames, in
source order: the payload of each sample is the frame itself, unchanged, and its duration is
33 ms whatever the size of the payload; every write before the `k`-th succeeded, `k` is less
than the number of frames only if the `k`-th write failed, and `k` is the number of frames if
no write fails; so three frames followed by end-of-stream give three samples, with the three
frames as payloads, when no write fails. -/
theorem captureAndStream_forwards_frames_in_order (enc : Encoder) (track : Track)
    (frames : List Bytes) (ending : StreamEnd)
    (h1 : enc.StdoutPipe = none) (h2 : enc.StderrPipe = none) (h3 : enc.Start = none)
    (h4 : enc.NewWith = Except.ok ⟨frames, ending⟩) :
    ∃ k, k ≤ frames.length ∧
      samplesWritten (captureAndStream enc track).trace = (frames.take k).map sampleOf ∧
      samplesWritten (captureAndStream enc track).trace
        = (frames.take k).map (fun frame => (⟨frame, 33000000⟩ : Sample)) ∧
      (samplesWritten (captureAndStream enc track).trace).map Sample.Data = frames.take k ∧
      (∀ i, i + 1 < k → writeErrAt track [] frames i = none) ∧
      (k < frames.length → ∃ j, k = j + 1 ∧ writeErrAt track [] frames j ≠ none) ∧
      ((∀ i, i < frames.length → writeErrAt track [] frames i = none) → k = frames.length) ∧
      (∀ s ∈ samplesWritten (captureAndStream enc track).trace, s.Duration = 33000000) ∧
      (frames.length = 3 → ending = StreamEnd.EOF →
        (∀ i, i < frames.length → writeErrAt track [] frames i = none) →
        samplesWritten (captureAndStream enc track).trace = frames.map sampleOf ∧
        (samplesWritten (captureAndStream enc track).trace).map Sample.Data = frames ∧
        (samplesWritten (captureAndStream enc track).trace).length = 3) := by
  obtain ⟨k, hk, hs, hbefore, hlast, hall⟩ := frameLoop_written track frames []
  have hrun : samplesWritten (captureAndStream enc track).trace
      = (frames.take k).map sampleOf := by
    rw [captureAndStream_started enc track ⟨frames, ending⟩ h1 h2 h3 h4]
    show samplesWritten ([BridgeEvent.Start] ++ frameLoop track [] frames ++
      [BridgeEvent.Kill, BridgeEvent.Wait]) = _
    rw [samplesWritten_append, samplesWritten_append, hs]
    simp [samplesWritten]
  have hdata : ∀ l : List Bytes, (l.map sampleOf).map Sample.Data = l := by
    intro l
    induction l with
    | nil => rfl
    | cons f t ih => simp only [List.map_cons, ih]; rfl
  refine ⟨k, hk, hrun, ?_, ?_, hbefore, hlast, hall, ?_, ?_⟩
  · rw [hrun]; rfl
  · rw [hrun, hdata]
  · intro s hmem
    rw [hrun, List.mem_map] at hmem
    obtain ⟨f, _, hf⟩ := hmem
    rw [← hf]
    rfl
  · intro h3f _ hno
    have hkn := hall hno
    rw [hrun, hkn, List.take_length]
    exact ⟨rfl, hdata frames, by simp [h3f]⟩

/-- Witness for C4: three frames of different sizes followed by end-of-stream, on a track
that takes every sample. -/
theorem captureAndStream_forwards_frames_in_order_witness :
    samplesWritten (captureAndStream (encoderOf [[1], [2, 2], [3, 3, 3, 3]]) goodTrack).trace
      = [⟨[1], 33000000⟩, ⟨[2, 2], 33000000⟩, ⟨[3, 3, 3, 3], 33000000⟩] := by
  obtain ⟨_, _, _, _, _, _, _, _, _, h⟩ := captureAndStream_forwards_frames_in_order
    (encoderOf [[1], [2, 2], [3, 3, 3, 3]]) goodTrack [[1], [2, 2], [3, 3, 3, 3]] StreamEnd.EOF
    rfl rfl rfl rfl
  exact (h rfl rfl (fun _ _ => rfl)).1

/-! ## The encoder bridge: teardown -/

theorem frameLoop_no_teardown (track : Track) (frames : List Bytes) :
    ∀ written : List Sample,
      (frameLoop track written frames).count BridgeEvent.Kill = 0 ∧
      (frameLoop track written frames).count BridgeEvent.Wait = 0 := by
  induction frames with
  | nil => intro written; simp [frameLoop]
  | cons f rest ih =>
    intro written
    cases hw : track.WriteSample written (sampleOf f) with
    | some err => simp [frameLoop, hw]
    | none =>
      have := ih (written ++ [sampleOf f])
      simp [frameLoop, hw, this]

/-- The paths of `captureAndStream` that return (end of stream, parse error, failed write):
the trace ends with one Kill followed by one Wait, after everything the frame loop did. -/
theorem captureAndStream_teardown_on_return (enc : Encoder) (track : Track) (ivf : IVFStream)
    (h1 : enc.StdoutPipe = none) (h2 : enc.StderrPipe = none) (h3 : enc.Start = none)
    (h4 : enc.NewWith = Except.ok ivf) :
    (captureAndStream enc track).trace =
      BridgeEvent.Start :: frameLoop track [] ivf.frames ++
        [BridgeEvent.Kill, BridgeEvent.Wait] ∧
    (captureAndStream enc track).trace.count BridgeEvent.Kill = 1 ∧
    (captureAndStream enc track).trace.count BridgeEvent.Wait = 1 ∧
    (captureAndStream enc track).outcome = Outcome.returned := by
  rw [captureAndStream_started enc track ivf h1 h2 h3 h4]
  have h := frameLoop_no_teardown track ivf.frames []
  refine ⟨rfl, ?_, ?_, rfl⟩
  · simp [List.count_cons, List.count_append, h.1]
  · simp [List.count_cons, List.count_append, h.2]

/-- C5, at the failing input: when the process has started and the container header cannot be
decoded, `log.Fatalf` ends the process; the deferred teardown does not run, so neither Kill
nor Wait is issued. -/
theorem captureAndStream_header_failure_skips_teardown (track : Track) :
    (captureAndStream badHeaderEncoder track).trace
      = [BridgeEvent.Start, BridgeEvent.Log BridgeLog.errorCreatingIVFReader] ∧
    (captureAndStream badHeaderEncoder track).outcome = Outcome.exited ∧
    (captureAndStream badHeaderEncoder track).trace.count BridgeEvent.Kill = 0 ∧
    (captureAndStream badHeaderEncoder track).trace.count BridgeEvent.Wait = 0 :=
  ⟨rfl, rfl, rfl, rfl⟩

end Main
